import Mathlib

/-!
Shallow embedding of the task/user HTTP service (`src/src/main.rs`).

The store (`Database`) keeps two keyed collections.  The Rust type
`HashMap<u64, V>` is modelled as an association list `List (Nat × V)`:
`hmInsert` replaces the value at an existing key or appends a fresh
entry, `hmGet` returns the first value stored at a key, and `hmRemove`
drops every entry at a key (a `HashMap` holds at most one).  Persistence
is modelled by an explicit `Json` value type mirroring the fragment of
the serde_json data model the program uses: structs become objects with
named fields, and a `HashMap<u64, V>` becomes an object whose keys are
the decimal string renderings of the numeric ids, exactly as
`serde_json::to_string` produces them.  The filesystem is explicit
state: the contents of `database.json` plus a writability flag, so that
save failures and load failures can be expressed.
-/

set_option autoImplicit false

namespace TRService

/-- Association-list insert with `HashMap::insert` semantics: overwrite
the entry at the key if present, otherwise add a new entry. -/
def hmInsert {α : Type} (k : Nat) (v : α) : List (Nat × α) → List (Nat × α)
  | [] => [(k, v)]
  | p :: rest => if p.1 = k then (k, v) :: rest else p :: hmInsert k v rest

/-- Association-list lookup with `HashMap::get` semantics. -/
def hmGet {α : Type} (k : Nat) : List (Nat × α) → Option α
  | [] => none
  | p :: rest => if p.1 = k then some p.2 else hmGet k rest

/-- Association-list removal with `HashMap::remove` semantics: every
entry stored at the key disappears (a `HashMap` holds at most one). -/
def hmRemove {α : Type} (k : Nat) (l : List (Nat × α)) : List (Nat × α) :=
  l.filter (fun p => p.1 ≠ k)

/-- The values of the map, in iteration order (`HashMap::values`). -/
def hmValues {α : Type} (l : List (Nat × α)) : List α :=
  l.map Prod.snd

/-- `struct Task { id: u64, name: String, completed: bool }`. -/
structure Task where
  id : Nat
  name : String
  completed : Bool
deriving Repr, DecidableEq

/-- `struct User { id: u64, username: String, password: String }`. -/
structure User where
  id : Nat
  username : String
  password : String
deriving Repr, DecidableEq

/-- `struct Database { tasks: HashMap<u64, Task>, users: HashMap<u64, User> }`. -/
structure Database where
  tasks : List (Nat × Task)
  users : List (Nat × User)
deriving Repr, DecidableEq

namespace Database

/-- `Database::new`: both collections empty. -/
def new : Database :=
  { tasks := [], users := [] }

/-- `Database::insert`: `self.tasks.insert(task.id, task)`. -/
def insert (db : Database) (task : Task) : Database :=
  { db with tasks := hmInsert task.id task db.tasks }

/-- `Database::get`: `self.tasks.get(id)`. -/
def get (db : Database) (id : Nat) : Option Task :=
  hmGet id db.tasks

/-- `Database::get_all`: `self.tasks.values().collect()`. -/
def get_all (db : Database) : List Task :=
  hmValues db.tasks

/-- `Database::delete`: `self.tasks.remove(id)`. -/
def delete (db : Database) (id : Nat) : Database :=
  { db with tasks := hmRemove id db.tasks }

/-- `Database::update`: `self.tasks.insert(task.id, task)` — the same
body as `Database::insert`. -/
def update (db : Database) (task : Task) : Database :=
  { db with tasks := hmInsert task.id task db.tasks }

/-- `Database::insert_user`: `self.users.insert(user.id, user)`. -/
def insert_user (db : Database) (user : User) : Database :=
  { db with users := hmInsert user.id user db.users }

/-- `Database::get_user_by_name`:
`self.users.values().find(|user| user.username == username)`. -/
def get_user_by_name (db : Database) (username : String) : Option User :=
  (hmValues db.users).find? (fun user => user.username == username)

end Database

/-- The fragment of the serde_json data model that the derived
serialization of `Database` produces: strings, unsigned numbers,
booleans and objects with string keys. -/
inductive Json where
  | str : String → Json
  | num : Nat → Json
  | bool : Bool → Json
  | obj : List (String × Json) → Json
deriving Repr

/-- A decimal digit rendered as its character, the way serde_json
stringifies the numeric keys of a `HashMap<u64, _>`. -/
def digitChar (d : Nat) : Char :=
  Char.ofNat (48 + d)

/-- A digit character back to its value. -/
def charDigit (c : Char) : Nat :=
  c.toNat - 48

/-- Whether a character is a decimal digit. -/
def isDigitChar (c : Char) : Bool :=
  48 ≤ c.toNat && c.toNat ≤ 57

/-- Decimal rendering of a `u64` map key. -/
def natToString (n : Nat) : String :=
  if n = 0 then "0" else ⟨((Nat.digits 10 n).map digitChar).reverse⟩

/-- Parse a decimal key string back to a number; anything that is not a
nonempty string of digits is rejected, as the serde `u64` key
deserializer rejects it. -/
def parseNat (s : String) : Option Nat :=
  if s.data ≠ [] ∧ s.data.all isDigitChar then
    some (Nat.ofDigits 10 ((s.data.map charDigit).reverse))
  else none

/-- Field access in a JSON object, as a deserializer visits fields. -/
def Json.getField (j : Json) (k : String) : Option Json :=
  match j with
  | .obj fields => fields.lookup k
  | _ => none

/-- Derived `Serialize` for `Task`. -/
def Task.toJson (t : Task) : Json :=
  .obj [("id", .num t.id), ("name", .str t.name), ("completed", .bool t.completed)]

/-- Derived `Deserialize` for `Task`: all three fields must be present
with their declared types. -/
def Task.fromJson (j : Json) : Option Task :=
  match j.getField "id", j.getField "name", j.getField "completed" with
  | some (.num i), some (.str n), some (.bool c) => some ⟨i, n, c⟩
  | _, _, _ => none

/-- Derived `Serialize` for `User`. -/
def User.toJson (u : User) : Json :=
  .obj [("id", .num u.id), ("username", .str u.username), ("password", .str u.password)]

/-- Derived `Deserialize` for `User`. -/
def User.fromJson (j : Json) : Option User :=
  match j.getField "id", j.getField "username", j.getField "password" with
  | some (.num i), some (.str un), some (.str pw) => some ⟨i, un, pw⟩
  | _, _, _ => none

/-- Derived `Serialize` for `HashMap<u64, V>`: an object keyed by the
decimal renderings of the ids. -/
def encodeMap {α : Type} (enc : α → Json) (l : List (Nat × α)) : Json :=
  .obj (l.map fun p => (natToString p.1, enc p.2))

/-- One entry of a serialized `HashMap<u64, V>`: parse the key back to
a number and the value back to a record. -/
def decodeEntry {α : Type} (dec : Json → Option α) (p : String × Json) : Option (Nat × α) :=
  match parseNat p.1, dec p.2 with
  | some k, some v => some (k, v)
  | _, _ => none

/-- Decode the entries of a serialized `HashMap<u64, V>` in order;
every entry must decode, otherwise the whole map fails. -/
def decodeEntries {α : Type} (dec : Json → Option α) : List (String × Json) → Option (List (Nat × α))
  | [] => some []
  | p :: rest =>
    match decodeEntry dec p, decodeEntries dec rest with
    | some e, some es => some (e :: es)
    | _, _ => none

/-- Derived `Deserialize` for `HashMap<u64, V>`: the value must be an
object and every entry of it must decode. -/
def decodeMap {α : Type} (dec : Json → Option α) : Json → Option (List (Nat × α))
  | .obj fields => decodeEntries dec fields
  | _ => none

/-- Derived `Serialize` for `Database` (what `serde_json::to_string(&self)`
renders in `save_to_file`). -/
def Database.toJson (db : Database) : Json :=
  .obj [("tasks", encodeMap Task.toJson db.tasks), ("users", encodeMap User.toJson db.users)]

/-- Derived `Deserialize` for `Database` (what `serde_json::from_str`
parses in `load_from_file`). -/
def Database.fromJson (j : Json) : Option Database :=
  match j.getField "tasks", j.getField "users" with
  | some tj, some uj =>
    match decodeMap Task.fromJson tj, decodeMap User.fromJson uj with
    | some ts, some us => some ⟨ts, us⟩
    | _, _ => none
  | _, _ => none

/-- The environment the persistence code touches: the parsed contents
of `database.json` (`none` = missing or unparseable file) and whether
writes to it currently succeed. -/
structure FsState where
  file : Option Json
  writable : Bool
deriving Repr

/-- `Database::save_to_file`: serialize the whole store and truncate-
and-rewrite `database.json`.  A failing write (`writable = false`)
leaves the file as it was and reports an `Err`. -/
def Database.save_to_file (db : Database) (fs : FsState) : FsState × Except Unit Unit :=
  if fs.writable then ({ fs with file := some db.toJson }, .ok ()) else (fs, .error ())

/-- `Database::load_from_file`: read `database.json` and deserialize
it.  A missing file or undecodable contents is an `Err`. -/
def Database.load_from_file (fs : FsState) : Except Unit Database :=
  match fs.file with
  | none => .error ()
  | some j =>
    match Database.fromJson j with
    | some db => .ok db
    | none => .error ()

/-- The state a request handler can touch: the shared store and the
filesystem. -/
structure SysState where
  db : Database
  fs : FsState
deriving Repr

/-- POST /task (`create_task`): insert, then best-effort save
(`let _ = database.save_to_file()`), then respond `200`. -/
def create_task (st : SysState) (task : Task) : SysState × Nat :=
  let db := st.db.insert task
  let fs := (db.save_to_file st.fs).1
  (⟨db, fs⟩, 200)

/-- GET /task/{id} (`get_task`): `200` with the task, or `404`. -/
def get_task (st : SysState) (id : Nat) : Nat × Option Task :=
  match st.db.get id with
  | some task => (200, some task)
  | none => (404, none)

/-- GET /tasks (`get_all_tasks`). -/
def get_all_tasks (st : SysState) : Nat × List Task :=
  (200, st.db.get_all)

/-- DELETE /task/{id} (`delete_task`): delete, best-effort save, `200`. -/
def delete_task (st : SysState) (id : Nat) : SysState × Nat :=
  let db := st.db.delete id
  let fs := (db.save_to_file st.fs).1
  (⟨db, fs⟩, 200)

/-- PUT /task (`update_task`): update, best-effort save, `200`. -/
def update_task (st : SysState) (task : Task) : SysState × Nat :=
  let db := st.db.update task
  let fs := (db.save_to_file st.fs).1
  (⟨db, fs⟩, 200)

/-- POST /register (`register`): insert_user, best-effort save, `200`. -/
def register (st : SysState) (user : User) : SysState × Nat :=
  let db := st.db.insert_user user
  let fs := (db.save_to_file st.fs).1
  (⟨db, fs⟩, 200)

/-- The two responses of POST /login: `200 "User Logged in!"` and
`400 "Invalid Username or Password"`. -/
inductive LoginResult where
  | loggedIn
  | invalid
deriving Repr, DecidableEq

/-- POST /login (`login`): look the username up; the match guard
re-compares the usernames; no password is ever consulted. -/
def login (db : Database) (user : User) : LoginResult :=
  match db.get_user_by_name user.username with
  | some stored_user =>
    if user.username == stored_user.username then .loggedIn else .invalid
  | none => .invalid

/-- Startup in `main`:
`match Database::load_from_file() { Ok(db) => db, Err(_) => Database::new() }`. -/
def startupDb (fs : FsState) : Database :=
  match Database.load_from_file fs with
  | .ok db => db
  | .error _ => Database.new

/-- The store mutators, as an operation alphabet for reachability. -/
inductive Op where
  | insertTask (t : Task)
  | updateTask (t : Task)
  | deleteTask (id : Nat)
  | insertUser (u : User)
deriving Repr

/-- Apply one mutator. -/
def applyOp (db : Database) : Op → Database
  | .insertTask t => db.insert t
  | .updateTask t => db.update t
  | .deleteTask id => db.delete id
  | .insertUser u => db.insert_user u

/-- Apply a sequence of mutators, oldest first. -/
def applyOps (db : Database) (ops : List Op) : Database :=
  ops.foldl applyOp db

/-- The keyed-collection invariant of §3 of the spec: in each mapping,
the key of every entry equals the `id` field of its value. -/
def KeyedInv (db : Database) : Prop :=
  (∀ p ∈ db.tasks, p.1 = p.2.id) ∧ (∀ p ∈ db.users, p.1 = p.2.id)

/-- Looking up a key right after inserting it yields the inserted value. -/
theorem hmGet_hmInsert_self {α : Type} (k : Nat) (v : α) (l : List (Nat × α)) :
    hmGet k (hmInsert k v l) = some v := by
  induction l with
  | nil => simp [hmInsert, hmGet]
  | cons p rest ih =>
    by_cases h : p.1 = k
    · simp [hmInsert, hmGet, h]
    · simp [hmInsert, hmGet, h, ih]

/-- Looking up a key right after removing it yields nothing. -/
theorem hmGet_hmRemove_self {α : Type} (k : Nat) (l : List (Nat × α)) :
    hmGet k (hmRemove k l) = none := by
  induction l with
  | nil => rfl
  | cons p rest ih =>
    by_cases h : p.1 = k
    · simpa [hmRemove, List.filter_cons, h] using ih
    · simpa [hmRemove, List.filter_cons, hmGet, h] using ih

/-- A lookup misses exactly when no entry carries the key. -/
theorem hmGet_eq_none_iff {α : Type} (k : Nat) (l : List (Nat × α)) :
    hmGet k l = none ↔ ∀ p ∈ l, p.1 ≠ k := by
  induction l with
  | nil => simp [hmGet]
  | cons p rest ih =>
    by_cases h : p.1 = k <;> simp [hmGet, h, ih]

/-- Removing a key that no entry carries changes nothing. -/
theorem hmRemove_eq_self_of_forall {α : Type} (k : Nat) (l : List (Nat × α))
    (h : ∀ p ∈ l, p.1 ≠ k) : hmRemove k l = l := by
  unfold hmRemove
  rw [List.filter_eq_self]
  intro p hp
  simpa using h p hp

/-- Every entry of the map after an insert is the inserted pair or an
old entry. -/
theorem mem_hmInsert {α : Type} (k : Nat) (v : α) (l : List (Nat × α)) (p : Nat × α)
    (hp : p ∈ hmInsert k v l) : p = (k, v) ∨ p ∈ l := by
  induction l with
  | nil => simpa [hmInsert] using hp
  | cons q rest ih =>
    by_cases h : q.1 = k
    · simp only [hmInsert, if_pos h] at hp
      rcases List.mem_cons.mp hp with h1 | h1
      · exact Or.inl h1
      · exact Or.inr (List.mem_cons_of_mem _ h1)
    · simp only [hmInsert, if_neg h] at hp
      rcases List.mem_cons.mp hp with h1 | h1
      · exact Or.inr (by simp [h1])
      · rcases ih h1 with h2 | h2
        · exact Or.inl h2
        · exact Or.inr (List.mem_cons_of_mem _ h2)

/-- Removal only drops entries. -/
theorem mem_hmRemove {α : Type} (k : Nat) (l : List (Nat × α)) (p : Nat × α)
    (hp : p ∈ hmRemove k l) : p ∈ l :=
  (List.mem_filter.mp hp).1

/-- Each single mutator preserves the keyed-collection invariant. -/
theorem keyedInv_applyOp (db : Database) (op : Op) (h : KeyedInv db) :
    KeyedInv (applyOp db op) := by
  rcases h with ⟨ht, hu⟩
  cases op with
  | insertTask t =>
    refine ⟨fun p hp => ?_, hu⟩
    rcases mem_hmInsert t.id t db.tasks p hp with rfl | hp'
    · rfl
    · exact ht p hp'
  | updateTask t =>
    refine ⟨fun p hp => ?_, hu⟩
    rcases mem_hmInsert t.id t db.tasks p hp with rfl | hp'
    · rfl
    · exact ht p hp'
  | deleteTask id =>
    exact ⟨fun p hp => ht p (mem_hmRemove id db.tasks p hp), hu⟩
  | insertUser u =>
    refine ⟨ht, fun p hp => ?_⟩
    rcases mem_hmInsert u.id u db.users p hp with rfl | hp'
    · rfl
    · exact hu p hp'

/-- Rendering a digit and reading it back is the identity. -/
theorem charDigit_digitChar {d : Nat} (h : d < 10) : charDigit (digitChar d) = d := by
  interval_cases d <;> decide

/-- Rendered digits are digit characters. -/
theorem isDigitChar_digitChar {d : Nat} (h : d < 10) : isDigitChar (digitChar d) = true := by
  interval_cases d <;> decide

/-- The decimal rendering of a key parses back to the key. -/
theorem parseNat_natToString (n : Nat) : parseNat (natToString n) = some n := by
  by_cases h0 : n = 0
  · subst h0; decide
  · have hne : Nat.digits 10 n ≠ [] := Nat.digits_ne_nil_iff_ne_zero.mpr h0
    have hlt : ∀ d ∈ Nat.digits 10 n, d < 10 := fun d hd =>
      Nat.digits_lt_base (by norm_num) hd
    rw [natToString, if_neg h0]
    have hdata : (String.mk (((Nat.digits 10 n).map digitChar).reverse)).data
        = ((Nat.digits 10 n).map digitChar).reverse := rfl
    have hcond : (String.mk (((Nat.digits 10 n).map digitChar).reverse)).data ≠ [] ∧
        ((String.mk (((Nat.digits 10 n).map digitChar).reverse)).data.all isDigitChar) = true := by
      rw [hdata]
      constructor
      · simpa using hne
      · rw [List.all_eq_true]
        intro c hc
        rw [List.mem_reverse, List.mem_map] at hc
        obtain ⟨d, hd, rfl⟩ := hc
        exact isDigitChar_digitChar (hlt d hd)
    rw [parseNat, if_pos hcond, hdata]
    have hmap : ((((Nat.digits 10 n).map digitChar).reverse).map charDigit).reverse
        = Nat.digits 10 n := by
      rw [List.map_reverse, List.reverse_reverse, List.map_map]
      have : (Nat.digits 10 n).map (charDigit ∘ digitChar) = (Nat.digits 10 n).map id :=
        List.map_congr_left fun d hd => charDigit_digitChar (hlt d hd)
      rw [this, List.map_id]
    rw [hmap, Nat.ofDigits_digits]

/-- Task serialization round-trips. -/
theorem taskJson_roundtrip (t : Task) : Task.fromJson t.toJson = some t := rfl

/-- User serialization round-trips. -/
theorem userJson_roundtrip (u : User) : User.fromJson u.toJson = some u := rfl

/-- Decoding the encoded entries of a keyed collection recovers the
collection exactly, whenever the value codec round-trips. -/
theorem decodeEntries_encode {α : Type} (dec : Json → Option α) (enc : α → Json)
    (h : ∀ a, dec (enc a) = some a) (l : List (Nat × α)) :
    decodeEntries dec (l.map fun p => (natToString p.1, enc p.2)) = some l := by
  induction l with
  | nil => rfl
  | cons p rest ih =>
    simp [decodeEntries, decodeEntry, parseNat_natToString, h, ih]

/-- Map serialization round-trips, whenever the value codec does. -/
theorem decodeMap_encodeMap {α : Type} (dec : Json → Option α) (enc : α → Json)
    (h : ∀ a, dec (enc a) = some a) (l : List (Nat × α)) :
    decodeMap dec (encodeMap enc l) = some l := by
  simpa [decodeMap, encodeMap] using decodeEntries_encode dec enc h l

/-- Whole-store serialization round-trips. -/
theorem databaseJson_roundtrip (db : Database) : Database.fromJson db.toJson = some db := by
  have h1 : (Database.toJson db).getField "tasks" = some (encodeMap Task.toJson db.tasks) := rfl
  have h2 : (Database.toJson db).getField "users" = some (encodeMap User.toJson db.users) := rfl
  have ht := decodeMap_encodeMap Task.fromJson Task.toJson taskJson_roundtrip db.tasks
  have hu := decodeMap_encodeMap User.fromJson User.toJson userJson_roundtrip db.users
  simp [Database.fromJson, h1, h2, ht, hu]

/-- C1: for every Task t and every store state, `Database::insert` of t
followed by `Database::get` of t.id returns exactly t, all fields
unchanged. -/
theorem insert_then_get (db : Database) (t : Task) :
    (db.insert t).get t.id = some t :=
  hmGet_hmInsert_self t.id t db.tasks

/-- C2: saving any store with `save_to_file` and loading the written
contents back with `load_from_file` succeeds and yields a store equal
to the original, hence with identical task and user collections. -/
theorem save_load_roundtrip (db : Database) (fs : FsState) (h : fs.writable = true) :
    Database.load_from_file (db.save_to_file fs).1 = Except.ok db := by
  simp [Database.save_to_file, h, Database.load_from_file, databaseJson_roundtrip]

/-- Witness for C2 at a concrete non-empty store and a writable
filesystem. -/
theorem save_load_roundtrip_witness :
    Database.load_from_file
        ((Database.mk [(1, ⟨1, "buy milk", false⟩)] [(7, ⟨7, "alice", "p1"⟩)]).save_to_file
          ⟨none, true⟩).1
      = Except.ok (Database.mk [(1, ⟨1, "buy milk", false⟩)] [(7, ⟨7, "alice", "p1"⟩)]) :=
  save_load_roundtrip (Database.mk [(1, ⟨1, "buy milk", false⟩)] [(7, ⟨7, "alice", "p1"⟩)])
    ⟨none, true⟩ rfl

/-- C3: `Database::update` produces exactly the same resulting store as
`Database::insert` on every store and every task; both bodies insert
the task at key task.id, so update is an upsert that creates absent
entries. -/
theorem update_is_insert (db : Database) (t : Task) :
    db.update t = db.insert t := rfl

/-- C4: after `Database::delete` of an id, `Database::get` of that id
misses, for every store and every id; and deleting an id no entry
carries leaves the store unchanged. -/
theorem delete_then_get (db : Database) (id : Nat) :
    (db.delete id).get id = none ∧ (db.get id = none → db.delete id = db) := by
  constructor
  · exact hmGet_hmRemove_self id db.tasks
  · intro h
    show ({ db with tasks := hmRemove id db.tasks } : Database) = db
    rw [hmRemove_eq_self_of_forall id db.tasks ((hmGet_eq_none_iff id db.tasks).mp h)]

/-- Witness for C4: deleting the never-inserted id 5 from the empty
store misses on lookup and is a no-op. -/
theorem delete_then_get_witness :
    (Database.new.delete 5).get 5 = none ∧ Database.new.delete 5 = Database.new :=
  ⟨(delete_then_get Database.new 5).1, (delete_then_get Database.new 5).2 rfl⟩

/-- C5: login succeeds exactly when some stored user carries the
requested username; the password plays no part. -/
theorem login_success_iff (db : Database) (u : User) :
    login db u = LoginResult.loggedIn ↔
      ∃ stored ∈ hmValues db.users, stored.username = u.username := by
  unfold login Database.get_user_by_name
  cases hfind : (hmValues db.users).find? (fun user => user.username == u.username) with
  | none =>
    simp only [hfind]
    constructor
    · intro hcontra; cases hcontra
    · rintro ⟨s, hs, hname⟩
      have := List.find?_eq_none.mp hfind s hs
      simp [hname] at this
  | some stored =>
    have hmem := List.mem_of_find?_eq_some hfind
    have hname : stored.username = u.username := by simpa using List.find?_some hfind
    constructor
    · intro _
      exact ⟨stored, hmem, hname⟩
    · intro _
      simp [hname]

/-- C6: `Database::get_user_by_name` returns some stored user carrying
the requested username whenever one exists, and misses when none
does. -/
theorem get_user_by_name_spec (db : Database) (name : String) :
    ((∃ u ∈ hmValues db.users, u.username = name) →
      ∃ u, db.get_user_by_name name = some u ∧ u.username = name ∧ u ∈ hmValues db.users)
    ∧ ((∀ u ∈ hmValues db.users, u.username ≠ name) →
      db.get_user_by_name name = none) := by
  constructor
  · rintro ⟨u, hu, hname⟩
    cases hfind : db.get_user_by_name name with
    | none =>
      exfalso
      have hfind2 : (hmValues db.users).find? (fun user => user.username == name) = none := by
        simpa [Database.get_user_by_name] using hfind
      have hall := List.find?_eq_none.mp hfind2 u hu
      simp [hname] at hall
    | some v =>
      have hv : (hmValues db.users).find? (fun user => user.username == name) = some v := by
        simpa [Database.get_user_by_name] using hfind
      exact ⟨v, rfl, by simpa using List.find?_some hv, List.mem_of_find?_eq_some hv⟩
  · intro hall
    unfold Database.get_user_by_name
    rw [List.find?_eq_none]
    intro u hu
    simp [hall u hu]

/-- Witness for C6 on a store holding exactly the user alice. -/
theorem get_user_by_name_spec_witness :
    ∃ u, (Database.mk [] [(7, ⟨7, "alice", "p1"⟩)]).get_user_by_name "alice" = some u
      ∧ u.username = "alice"
      ∧ u ∈ hmValues (Database.mk [] [(7, ⟨7, "alice", "p1"⟩)]).users :=
  (get_user_by_name_spec (Database.mk [] [(7, ⟨7, "alice", "p1"⟩)]) "alice").1
    ⟨⟨7, "alice", "p1"⟩, by simp [hmValues], rfl⟩

/-- C7: the keyed-collection invariant holds of the empty store and is
preserved by every sequence of insert, update, delete and insert_user
operations from any store satisfying it. -/
theorem keyed_invariant (db : Database) (ops : List Op) :
    KeyedInv Database.new ∧ (KeyedInv db → KeyedInv (applyOps db ops)) := by
  constructor
  · exact ⟨fun p hp => absurd hp (List.not_mem_nil p),
      fun p hp => absurd hp (List.not_mem_nil p)⟩
  · intro h
    induction ops generalizing db with
    | nil => exact h
    | cons op rest ih =>
      exact ih (applyOp db op) (keyedInv_applyOp db op h)

/-- Witness for C7 on a concrete run from the empty store. -/
theorem keyed_invariant_witness :
    KeyedInv (applyOps Database.new
      [Op.insertTask ⟨1, "buy milk", false⟩, Op.insertUser ⟨7, "alice", "p1"⟩,
        Op.updateTask ⟨1, "buy milk", true⟩, Op.deleteTask 3]) :=
  (keyed_invariant Database.new
      [Op.insertTask ⟨1, "buy milk", false⟩, Op.insertUser ⟨7, "alice", "p1"⟩,
        Op.updateTask ⟨1, "buy milk", true⟩, Op.deleteTask 3]).2
    (keyed_invariant Database.new []).1

/-- C8: startup substitutes a freshly constructed empty store whenever
loading fails, and uses the loaded store as-is on success. -/
theorem startup_recovery (fs : FsState) :
    (∀ e, Database.load_from_file fs = Except.error e →
      startupDb fs = Database.new
        ∧ (startupDb fs).tasks = [] ∧ (startupDb fs).users = [])
    ∧ (∀ db, Database.load_from_file fs = Except.ok db → startupDb fs = db) := by
  constructor
  · intro e he
    refine ⟨?_, ?_, ?_⟩ <;> simp [startupDb, he, Database.new]
  · intro db hdb
    simp [startupDb, hdb]

/-- Witness for C8: a missing file falls back to the empty store, and a
loadable file is used as-is. -/
theorem startup_recovery_witness :
    (startupDb ⟨none, true⟩ = Database.new
      ∧ (startupDb ⟨none, true⟩).tasks = [] ∧ (startupDb ⟨none, true⟩).users = [])
    ∧ startupDb ⟨some (Database.mk [(1, ⟨1, "buy milk", false⟩)] []).toJson, true⟩
        = Database.mk [(1, ⟨1, "buy milk", false⟩)] [] :=
  ⟨(startup_recovery ⟨none, true⟩).1 () rfl,
    (startup_recovery ⟨some (Database.mk [(1, ⟨1, "buy milk", false⟩)] []).toJson, true⟩).2
      (Database.mk [(1, ⟨1, "buy milk", false⟩)] [])
      (by simp [Database.load_from_file, databaseJson_roundtrip])⟩

/-- C9: every mutating handler applies the store mutation first and
attempts the save on the already-mutated store; when the save fails the
mutated store stands, the file is untouched, and the handler still
responds 200. -/
theorem mutation_precedes_save (st : SysState) (t : Task) (u : User) (id : Nat)
    (h : st.fs.writable = false) :
    create_task st t = (⟨st.db.insert t, st.fs⟩, 200)
    ∧ update_task st t = (⟨st.db.update t, st.fs⟩, 200)
    ∧ delete_task st id = (⟨st.db.delete id, st.fs⟩, 200)
    ∧ register st u = (⟨st.db.insert_user u, st.fs⟩, 200)
    ∧ (create_task st t).1.fs = ((st.db.insert t).save_to_file st.fs).1
    ∧ (update_task st t).1.fs = ((st.db.update t).save_to_file st.fs).1
    ∧ (delete_task st id).1.fs = ((st.db.delete id).save_to_file st.fs).1
    ∧ (register st u).1.fs = ((st.db.insert_user u).save_to_file st.fs).1 := by
  refine ⟨?_, ?_, ?_, ?_, rfl, rfl, rfl, rfl⟩ <;>
    simp [create_task, update_task, delete_task, register, Database.save_to_file, h]

/-- Witness for C9: a create against an unwritable filesystem mutates
the store, leaves the file alone and answers 200. -/
theorem mutation_precedes_save_witness :
    create_task ⟨Database.new, ⟨none, false⟩⟩ ⟨1, "buy milk", false⟩
      = (⟨Database.new.insert ⟨1, "buy milk", false⟩, ⟨none, false⟩⟩, 200) :=
  (mutation_precedes_save ⟨Database.new, ⟨none, false⟩⟩ ⟨1, "buy milk", false⟩
    ⟨7, "alice", "p1"⟩ 5 rfl).1

/-- C10: the two collections are independent: the task mutators leave
the user mapping untouched and insert_user leaves the task mapping
untouched. -/
theorem collections_independent (db : Database) (t : Task) (u : User) (id : Nat) :
    (db.insert t).users = db.users ∧ (db.update t).users = db.users
    ∧ (db.delete id).users = db.users ∧ (db.insert_user u).tasks = db.tasks :=
  ⟨rfl, rfl, rfl, rfl⟩

end TRService
